import Mathlib

/-!
Verification development for the MuseyamwaLabourConnect backend.

Shallow embedding of the core components described by the specification:
the token-economy ledger (`app/services/token_service.py`), the job state
machine (`app/services/job_service.py`), the offer flow
(`app/routes/offers.py`), payment settlement
(`app/routes/payments.py`, `app/routes/tokens.py`), the Pesepay gateway
adapter (`app/services/pesepay.py`), the proximity bounding-box filter
(`app/services/job_service.py`, `app/services/location_service.py`) and the
realtime broadcast hub (`app/services/notification_service.py`).

Database sessions are modelled by explicit state passing; `HTTPException`
by an `Except`-style error value; `datetime.utcnow()` by an abstract
`now : Nat` supplied by the caller.
-/

namespace MLC

/-- `TransactionType` enum from `app/models/token.py`. -/
inductive TransactionType where
  | purchase
  | deduction
  | refund
  | admin_grant
  | registration_bonus
deriving DecidableEq, Repr

/-- An error raised via `fastapi.HTTPException`: status code plus detail text. -/
structure HttpError where
  status_code : Nat
  detail : String
deriving DecidableEq, Repr

/-- One `token_transactions` row, as created by the ledger service
(`app/models/token.py`, `TokenTransaction`).  The `id`, `wallet_id` and
`created_at` columns play no role in the claims and are omitted. -/
structure TokenTransaction where
  type : TransactionType
  amount : Int
  balance_after : Int
  description : String
  reference_id : Option String
deriving DecidableEq, Repr

/-- One `token_wallets` row (`app/models/token.py`, `TokenWallet`), together
with its transaction history (the `transactions` relationship), oldest
first. -/
structure TokenWallet where
  balance : Int
  total_purchased : Int
  total_spent : Int
  transactions : List TokenTransaction
deriving DecidableEq, Repr

/-- The wallet created by `get_or_create_wallet`:
`TokenWallet(user_id=user_id, balance=0)` with column defaults
`total_purchased = 0`, `total_spent = 0` and no transactions. -/
def freshWallet : TokenWallet :=
  { balance := 0, total_purchased := 0, total_spent := 0, transactions := [] }

/-- `credit_tokens` (token_service.py, lines 25-49): add tokens to the wallet
and record a transaction with `balance_after` equal to the post-credit
balance.  Always succeeds. -/
def credit_tokens (w : TokenWallet) (amount : Int) (tx_type : TransactionType)
    (description : String) (reference_id : Option String) : TokenWallet :=
  let balance1 := w.balance + amount
  { balance := balance1
    total_purchased := w.total_purchased + amount
    total_spent := w.total_spent
    transactions := w.transactions ++
      [{ type := tx_type, amount := amount, balance_after := balance1,
         description := description, reference_id := reference_id }] }

/-- The 402 error raised by `deduct_tokens` on insufficient balance. -/
def insufficientErr (balance required : Int) : HttpError :=
  let b := toString balance
  let r := toString required
  { status_code := 402
    detail := "Insufficient tokens. Balance: " ++ b ++ ", required: " ++ r }

/-- `deduct_tokens` (token_service.py, lines 52-80), acting on an existing
wallet: raise 402 if `balance < amount`, otherwise decrease the balance,
increase `total_spent` and append a `DEDUCTION` transaction with
`amount = -amount`. -/
def deduct_tokens (w : TokenWallet) (amount : Int) (description : String)
    (reference_id : Option String) : Except HttpError TokenWallet :=
  if w.balance < amount then
    .error (insufficientErr w.balance amount)
  else
    let balance1 := w.balance - amount
    .ok { balance := balance1
          total_purchased := w.total_purchased
          total_spent := w.total_spent + amount
          transactions := w.transactions ++
            [{ type := .deduction, amount := -amount, balance_after := balance1,
               description := description, reference_id := reference_id }] }

/-- `get_or_create_wallet` (token_service.py, lines 13-22).  The per-user
wallet store is an `Option TokenWallet`.  When no wallet exists, a fresh
one is created, `db.add`-ed and committed immediately; the returned pair is
(wallet handed to the caller, committed store state). -/
def get_or_create_wallet : Option TokenWallet → TokenWallet × Option TokenWallet
  | none => (freshWallet, some freshWallet)
  | some w => (w, some w)

/-- `deduct_tokens` viewed at the storage level: it first runs
`get_or_create_wallet` (whose creation, if any, is already committed), then
performs the balance check and the debit.  The second component is the
committed store after the call, whether or not the debit succeeded. -/
def deduct_tokens_store (s : Option TokenWallet) (amount : Int)
    (description : String) (reference_id : Option String) :
    Except HttpError TokenWallet × Option TokenWallet :=
  let p := get_or_create_wallet s
  match deduct_tokens p.1 amount description reference_id with
  | .error e => (.error e, p.2)
  | .ok w2 => (.ok w2, some w2)

/-- `credit_tokens` at the storage level (it also begins with
`get_or_create_wallet`). -/
def credit_tokens_store (s : Option TokenWallet) (amount : Int)
    (tx_type : TransactionType) (description : String)
    (reference_id : Option String) : TokenWallet × Option TokenWallet :=
  let p := get_or_create_wallet s
  let w2 := credit_tokens p.1 amount tx_type description reference_id
  (w2, some w2)

/-- One ledger operation, as issued by callers of the token service. -/
inductive LedgerOp where
  | credit (amount : Int) (tx_type : TransactionType) (description : String)
      (reference_id : Option String)
  | deduct (amount : Int) (description : String) (reference_id : Option String)

/-- Apply one ledger operation to a wallet.  A failed debit raises 402 and
aborts its request, leaving the wallet as it was. -/
def applyOp (w : TokenWallet) : LedgerOp → TokenWallet
  | .credit a t d r => credit_tokens w a t d r
  | .deduct a d r =>
    match deduct_tokens w a d r with
    | .ok w2 => w2
    | .error _ => w

/-- Apply a finite sequence of ledger operations in order. -/
def applyOps (w : TokenWallet) : List LedgerOp → TokenWallet
  | [] => w
  | op :: rest => applyOps (applyOp w op) rest

/-- Sum of the recorded transaction amounts. -/
def txSum (txs : List TokenTransaction) : Int :=
  (txs.map TokenTransaction.amount).sum

/-- Starting from running balance `acc`, every transaction's `balance_after`
equals the running sum of amounts up to and including it. -/
def runningOk (acc : Int) : List TokenTransaction → Prop
  | [] => True
  | t :: rest => t.balance_after = acc + t.amount ∧ runningOk (acc + t.amount) rest

/-- The ledger reconciliation invariant for a wallet. -/
def walletInv (w : TokenWallet) : Prop :=
  w.balance = txSum w.transactions ∧ runningOk 0 w.transactions

theorem txSum_append (l1 l2 : List TokenTransaction) :
    txSum (l1 ++ l2) = txSum l1 + txSum l2 := by
  simp [txSum]

theorem runningOk_append_single (acc : Int) (txs : List TokenTransaction)
    (t : TokenTransaction) (h : runningOk acc txs)
    (ht : t.balance_after = acc + txSum txs + t.amount) :
    runningOk acc (txs ++ [t]) := by
  induction txs generalizing acc with
  | nil => simpa [runningOk, txSum] using ht
  | cons hd tl ih =>
    obtain ⟨h1, h2⟩ := h
    refine ⟨h1, ih (acc + hd.amount) h2 ?_⟩
    rw [ht]
    simp [txSum]
    ring

theorem walletInv_fresh : walletInv freshWallet := by
  constructor <;> simp [freshWallet, txSum, runningOk]

theorem walletInv_applyOp (w : TokenWallet) (op : LedgerOp)
    (h : walletInv w) : walletInv (applyOp w op) := by
  obtain ⟨hbal, hrun⟩ := h
  cases op with
  | credit a t d r =>
    constructor
    · simp [applyOp, credit_tokens, txSum_append, hbal, txSum]
    · exact runningOk_append_single 0 w.transactions _ hrun (by simp [hbal])
  | deduct a d r =>
    by_cases hlt : w.balance < a
    · simpa [applyOp, deduct_tokens, hlt] using ⟨hbal, hrun⟩
    · constructor
      · simp only [applyOp, deduct_tokens, if_neg hlt]
        simp [txSum_append, txSum, hbal]
        omega
      · simp only [applyOp, deduct_tokens, hlt, if_false]
        exact runningOk_append_single 0 w.transactions _ hrun (by simp [hbal]; omega)

theorem walletInv_applyOps (w : TokenWallet) (ops : List LedgerOp)
    (h : walletInv w) : walletInv (applyOps w ops) := by
  induction ops generalizing w with
  | nil => exact h
  | cons op rest ih => exact ih _ (walletInv_applyOp w op h)

/-- C1: Ledger reconciliation invariant.  For any finite sequence of
`credit_tokens` / `deduct_tokens` operations starting from a freshly created
wallet, the balance equals the sum of all recorded transaction amounts, and
each recorded transaction's `balance_after` equals the running sum of
amounts up to and including it. -/
theorem C1_ledger_reconciliation (ops : List LedgerOp) :
    (applyOps freshWallet ops).balance = txSum (applyOps freshWallet ops).transactions ∧
    runningOk 0 (applyOps freshWallet ops).transactions :=
  walletInv_applyOps freshWallet ops walletInv_fresh

/-- `JobStatus` enum from `app/models/job.py`. -/
inductive JobStatus where
  | requested
  | offered
  | assigned
  | en_route
  | on_site
  | completed
  | rated
  | cancelled
  | no_show
  | disputed
deriving DecidableEq, Repr

/-- The string value of each `JobStatus` enum member. -/
def statusName : JobStatus → String
  | .requested => "requested"
  | .offered => "offered"
  | .assigned => "assigned"
  | .en_route => "en_route"
  | .on_site => "on_site"
  | .completed => "completed"
  | .rated => "rated"
  | .cancelled => "cancelled"
  | .no_show => "no_show"
  | .disputed => "disputed"

/-- `VALID_TRANSITIONS` (job_service.py, lines 14-25). -/
def VALID_TRANSITIONS : JobStatus → List JobStatus
  | .requested => [.offered, .cancelled]
  | .offered => [.assigned, .cancelled, .requested]
  | .assigned => [.en_route, .cancelled, .no_show]
  | .en_route => [.on_site, .cancelled, .no_show]
  | .on_site => [.completed, .disputed]
  | .completed => [.rated, .disputed]
  | .rated => []
  | .cancelled => []
  | .no_show => [.disputed]
  | .disputed => [.completed, .cancelled]

/-- The transition table exactly as written in §4.2 of the specification,
kept as a separate definition so the source table can be compared against
it. -/
def specTransitionTable : JobStatus → List JobStatus
  | .requested => [.offered, .cancelled]
  | .offered => [.assigned, .cancelled, .requested]
  | .assigned => [.en_route, .cancelled, .no_show]
  | .en_route => [.on_site, .cancelled, .no_show]
  | .on_site => [.completed, .disputed]
  | .completed => [.rated, .disputed]
  | .no_show => [.disputed]
  | .disputed => [.completed, .cancelled]
  | .rated => []
  | .cancelled => []

/-- A `jobs` row (`app/models/job.py`, `Job`) restricted to the fields the
claims are about.  Users are identified by `Nat` and timestamps by an
abstract `Nat` clock. -/
structure Job where
  status : JobStatus
  employer_id : Nat
  worker_id : Option Nat
  agreed_price : Option Int
  assigned_at : Option Nat
  completed_at : Option Nat
  updated_at : Nat
  title : String
  token_cost : Int
deriving DecidableEq, Repr

/-- The 400 error raised by `transition_job` on an invalid transition. -/
def invalidTransitionErr (src dst : JobStatus) : HttpError :=
  { status_code := 400
    detail := "Cannot transition from " ++ statusName src ++ " to " ++ statusName dst
      ++ ". Allowed: " ++ String.intercalate ", " ((VALID_TRANSITIONS src).map statusName) }

/-- `transition_job` (job_service.py, lines 28-54).  Returns the request
outcome together with the (possibly updated) job row; on the error path the
exception is raised before any field is mutated, so the job is returned
unchanged. -/
def transition_job (now : Nat) (job : Job) (new_status : JobStatus)
    (worker_id : Option Nat) : Except HttpError Unit × Job :=
  if new_status ∈ VALID_TRANSITIONS job.status then
    let j1 := { job with status := new_status }
    let j2 :=
      if new_status = .assigned ∧ worker_id.isSome then
        { j1 with worker_id := worker_id, assigned_at := some now }
      else j1
    let j3 := if new_status = .completed then { j2 with completed_at := some now } else j2
    (.ok (), { j3 with updated_at := now })
  else
    (.error (invalidTransitionErr job.status new_status), job)

/-- `create_job` (routes/jobs.py, lines 24-52): deduct the posting cost
first; only when the debit succeeds is a `Job` row constructed, added and
committed.  State: the employer's wallet store and the jobs table. -/
def create_job (s : Option TokenWallet) (jobs : List Job) (employer_id : Nat)
    (title : String) (token_cost : Int) (now : Nat) :
    Except HttpError Job × Option TokenWallet × List Job :=
  match deduct_tokens_store s token_cost ("Job posting: " ++ title) none with
  | (.error e, s1) => (.error e, s1, jobs)
  | (.ok _, s1) =>
    let job : Job :=
      { status := .requested, employer_id := employer_id, worker_id := none,
        agreed_price := none, assigned_at := none, completed_at := none,
        updated_at := now, title := title, token_cost := token_cost }
    (.ok job, s1, jobs ++ [job])

/-- C3: Debit fails closed.  If the wallet balance is below `amount` the
debit raises the 402 InsufficientFunds error and the committed wallet state
is exactly the wallet the check saw (balance, total_spent and transaction
history unchanged), and a job post whose deduction fails creates no Job;
otherwise the debit succeeds, decreasing the balance by `amount`, increasing
`total_spent` by `amount` and appending exactly one transaction with
`amount = -amount`. -/
theorem C3_debit_fails_closed (s : Option TokenWallet) (amount : Int)
    (description : String) (reference_id : Option String)
    (jobs : List Job) (employer_id : Nat) (title : String) (now : Nat)
    (hpos : 0 < amount) :
    ((get_or_create_wallet s).1.balance < amount →
      deduct_tokens_store s amount description reference_id =
        (.error (insufficientErr (get_or_create_wallet s).1.balance amount),
          some (get_or_create_wallet s).1) ∧
      create_job s jobs employer_id title amount now =
        (.error (insufficientErr (get_or_create_wallet s).1.balance amount),
          some (get_or_create_wallet s).1, jobs)) ∧
    (amount ≤ (get_or_create_wallet s).1.balance →
      deduct_tokens_store s amount description reference_id =
        (.ok
          { balance := (get_or_create_wallet s).1.balance - amount
            total_purchased := (get_or_create_wallet s).1.total_purchased
            total_spent := (get_or_create_wallet s).1.total_spent + amount
            transactions := (get_or_create_wallet s).1.transactions ++
              [{ type := .deduction, amount := -amount,
                 balance_after := (get_or_create_wallet s).1.balance - amount,
                 description := description, reference_id := reference_id }] },
          some
          { balance := (get_or_create_wallet s).1.balance - amount
            total_purchased := (get_or_create_wallet s).1.total_purchased
            total_spent := (get_or_create_wallet s).1.total_spent + amount
            transactions := (get_or_create_wallet s).1.transactions ++
              [{ type := .deduction, amount := -amount,
                 balance_after := (get_or_create_wallet s).1.balance - amount,
                 description := description, reference_id := reference_id }] })) := by
  constructor
  · intro hlt
    have hs2 : (get_or_create_wallet s).2 = some (get_or_create_wallet s).1 := by
      cases s <;> rfl
    constructor
    · simp [deduct_tokens_store, deduct_tokens, hlt, hs2]
    · simp [create_job, deduct_tokens_store, deduct_tokens, hlt, hs2]
  · intro hge
    have hlt : ¬ (get_or_create_wallet s).1.balance < amount := not_lt.mpr hge
    simp [deduct_tokens_store, deduct_tokens, hlt]

/-- Witness for C3 at a concrete input: an empty store (fresh wallet,
balance 0) and a debit of 2 tokens. -/
theorem C3_debit_fails_closed_witness :
    ((get_or_create_wallet none).1.balance < 2 →
      deduct_tokens_store none 2 "d" none =
        (.error (insufficientErr (get_or_create_wallet none).1.balance 2),
          some (get_or_create_wallet none).1) ∧
      create_job none [] 7 "t" 2 0 =
        (.error (insufficientErr (get_or_create_wallet none).1.balance 2),
          some (get_or_create_wallet none).1, [])) ∧
    (2 ≤ (get_or_create_wallet none).1.balance →
      deduct_tokens_store none 2 "d" none =
        (.ok
          { balance := (get_or_create_wallet none).1.balance - 2
            total_purchased := (get_or_create_wallet none).1.total_purchased
            total_spent := (get_or_create_wallet none).1.total_spent + 2
            transactions := (get_or_create_wallet none).1.transactions ++
              [{ type := .deduction, amount := -2,
                 balance_after := (get_or_create_wallet none).1.balance - 2,
                 description := "d", reference_id := none }] },
          some
          { balance := (get_or_create_wallet none).1.balance - 2
            total_purchased := (get_or_create_wallet none).1.total_purchased
            total_spent := (get_or_create_wallet none).1.total_spent + 2
            transactions := (get_or_create_wallet none).1.transactions ++
              [{ type := .deduction, amount := -2,
                 balance_after := (get_or_create_wallet none).1.balance - 2,
                 description := "d", reference_id := none }] })) :=
  C3_debit_fails_closed none 2 "d" none [] 7 "t" 0 (by decide)

/-- C10: a failed debit against a user with no wallet row still leaves
behind the freshly created, committed wallet (balance 0, no transactions),
and for a user with an existing wallet a failed debit changes nothing. -/
theorem C10_failed_debit_wallet_creation (amount : Int) (description : String)
    (reference_id : Option String) (hpos : 0 < amount) :
    deduct_tokens_store none amount description reference_id =
      (.error (insufficientErr 0 amount), some freshWallet) ∧
    freshWallet.balance = 0 ∧ freshWallet.total_purchased = 0 ∧
    freshWallet.total_spent = 0 ∧ freshWallet.transactions = [] ∧
    (∀ w : TokenWallet, w.balance < amount →
      deduct_tokens_store (some w) amount description reference_id =
        (.error (insufficientErr w.balance amount), some w)) := by
  refine ⟨?_, rfl, rfl, rfl, rfl, ?_⟩
  · simp [deduct_tokens_store, get_or_create_wallet, deduct_tokens, freshWallet, hpos]
  · intro w hlt
    simp [deduct_tokens_store, get_or_create_wallet, deduct_tokens, hlt]

/-- C4: Job state machine.  `transition_job` fails with InvalidTransition
and leaves the job unchanged exactly when `new_status` is not in the
transition table's allowed set for the current status (and the source table
coincides with the table of §4.2, `rated` and `cancelled` terminal); on
success the status is updated, `worker_id` and `assigned_at` are set when
transitioning into `assigned` with a worker supplied, `completed_at` is set
when transitioning into `completed`, and `updated_at` is always
refreshed. -/
theorem C4_job_state_machine (now : Nat) (job : Job) (new_status : JobStatus)
    (worker_id : Option Nat) :
    (∀ s, VALID_TRANSITIONS s = specTransitionTable s) ∧
    ((transition_job now job new_status worker_id).1 = .ok () ↔
      new_status ∈ VALID_TRANSITIONS job.status) ∧
    (new_status ∉ VALID_TRANSITIONS job.status →
      transition_job now job new_status worker_id =
        (.error (invalidTransitionErr job.status new_status), job)) ∧
    (new_status ∈ VALID_TRANSITIONS job.status →
      (transition_job now job new_status worker_id).2.status = new_status ∧
      (transition_job now job new_status worker_id).2.updated_at = now ∧
      (new_status = .assigned → worker_id.isSome = true →
        (transition_job now job new_status worker_id).2.worker_id = worker_id ∧
        (transition_job now job new_status worker_id).2.assigned_at = some now) ∧
      (new_status = .completed →
        (transition_job now job new_status worker_id).2.completed_at = some now)) := by
  refine ⟨fun s => by cases s <;> rfl, ?_, ?_, ?_⟩
  · by_cases hmem : new_status ∈ VALID_TRANSITIONS job.status <;>
      simp [transition_job, hmem]
  · intro hmem
    simp [transition_job, hmem]
  · intro hmem
    refine ⟨?_, ?_, ?_, ?_⟩
    · simp only [transition_job]
      split_ifs <;> simp_all
    · simp only [transition_job]
      split_ifs <;> simp_all
    · rintro rfl hW
      constructor <;>
        · simp only [transition_job]
          split_ifs <;> simp_all
    · rintro rfl
      simp only [transition_job]
      split_ifs <;> simp_all

/-- Witness for C4 (no top-level `Prop` hypothesis; instantiated at a
concrete requested job transitioning to offered). -/
theorem C4_job_state_machine_witness :
    (∀ s, VALID_TRANSITIONS s = specTransitionTable s) ∧
    ((transition_job 5
        { status := .requested, employer_id := 1, worker_id := none,
          agreed_price := none, assigned_at := none, completed_at := none,
          updated_at := 0, title := "t", token_cost := 2 } .offered none).1 = .ok () ↔
      .offered ∈ VALID_TRANSITIONS
        ({ status := .requested, employer_id := 1, worker_id := none,
           agreed_price := none, assigned_at := none, completed_at := none,
           updated_at := 0, title := "t", token_cost := 2 } : Job).status) ∧
    (JobStatus.offered ∉ VALID_TRANSITIONS
        ({ status := .requested, employer_id := 1, worker_id := none,
           agreed_price := none, assigned_at := none, completed_at := none,
           updated_at := 0, title := "t", token_cost := 2 } : Job).status →
      transition_job 5
        { status := .requested, employer_id := 1, worker_id := none,
          agreed_price := none, assigned_at := none, completed_at := none,
          updated_at := 0, title := "t", token_cost := 2 } .offered none =
        (.error (invalidTransitionErr
          ({ status := .requested, employer_id := 1, worker_id := none,
             agreed_price := none, assigned_at := none, completed_at := none,
             updated_at := 0, title := "t", token_cost := 2 } : Job).status .offered),
          { status := .requested, employer_id := 1, worker_id := none,
            agreed_price := none, assigned_at := none, completed_at := none,
            updated_at := 0, title := "t", token_cost := 2 })) ∧
    (JobStatus.offered ∈ VALID_TRANSITIONS
        ({ status := .requested, employer_id := 1, worker_id := none,
           agreed_price := none, assigned_at := none, completed_at := none,
           updated_at := 0, title := "t", token_cost := 2 } : Job).status →
      (transition_job 5
        { status := .requested, employer_id := 1, worker_id := none,
          agreed_price := none, assigned_at := none, completed_at := none,
          updated_at := 0, title := "t", token_cost := 2 } .offered none).2.status = .offered ∧
      (transition_job 5
        { status := .requested, employer_id := 1, worker_id := none,
          agreed_price := none, assigned_at := none, completed_at := none,
          updated_at := 0, title := "t", token_cost := 2 } .offered none).2.updated_at = 5 ∧
      (JobStatus.offered = .assigned → (none : Option Nat).isSome = true →
        (transition_job 5
          { status := .requested, employer_id := 1, worker_id := none,
            agreed_price := none, assigned_at := none, completed_at := none,
            updated_at := 0, title := "t", token_cost := 2 } .offered none).2.worker_id = none ∧
        (transition_job 5
          { status := .requested, employer_id := 1, worker_id := none,
            agreed_price := none, assigned_at := none, completed_at := none,
            updated_at := 0, title := "t", token_cost := 2 } .offered none).2.assigned_at = some 5) ∧
      (JobStatus.offered = .completed →
        (transition_job 5
          { status := .requested, employer_id := 1, worker_id := none,
            agreed_price := none, assigned_at := none, completed_at := none,
            updated_at := 0, title := "t", token_cost := 2 } .offered none).2.completed_at = some 5)) :=
  C4_job_state_machine 5
    { status := .requested, employer_id := 1, worker_id := none,
      agreed_price := none, assigned_at := none, completed_at := none,
      updated_at := 0, title := "t", token_cost := 2 } .offered none

/-- Witness for C10 at amount 3. -/
theorem C10_failed_debit_wallet_creation_witness :
    deduct_tokens_store none 3 "d" none =
      (.error (insufficientErr 0 3), some freshWallet) ∧
    freshWallet.balance = 0 ∧ freshWallet.total_purchased = 0 ∧
    freshWallet.total_spent = 0 ∧ freshWallet.transactions = [] ∧
    (∀ w : TokenWallet, w.balance < 3 →
      deduct_tokens_store (some w) 3 "d" none =
        (.error (insufficientErr w.balance 3), some w)) :=
  C10_failed_debit_wallet_creation 3 "d" none (by decide)

/-- `OfferStatus` enum from `app/models/offer.py`. -/
inductive OfferStatus where
  | pending
  | accepted
  | rejected
  | counter
  | expired
deriving DecidableEq, Repr

/-- An `offers` row (`app/models/offer.py`, `Offer`) restricted to the
fields the claims are about. -/
structure Offer where
  job_id : Nat
  from_user_id : Nat
  to_user_id : Nat
  amount : Int
  message : Option String
  status : OfferStatus
deriving DecidableEq, Repr

/-- `respond_to_offer` (routes/offers.py, lines 78-116), for an offer whose
job exists.  On accept, the job's `agreed_price` is set to the offer amount
and `transition_job` is invoked towards `assigned` with
`worker_id = offer.to_user_id`; if that transition raises, the request
aborts and the session is rolled back, so no state change survives (the
error is returned with no updated rows).  On counter with an amount, a
fresh offer addressed back to the original sender is created.  The result
carries the updated offer, the (possibly updated) job and any newly created
offers. -/
def respond_to_offer (current_user : Nat) (offer : Offer) (job : Job)
    (req_status : OfferStatus) (counter_amount : Option Int)
    (counter_message : Option String) (now : Nat) :
    Except HttpError (Offer × Job × List Offer) :=
  if offer.to_user_id ≠ current_user then
    .error { status_code := 403, detail := "Not authorized" }
  else
    let offer1 := { offer with status := req_status }
    if req_status = .accepted then
      let job1 := { job with agreed_price := some offer.amount }
      match transition_job now job1 .assigned (some offer.to_user_id) with
      | (.ok _, job2) => .ok (offer1, job2, [])
      | (.error e, _) => .error e
    else if req_status = .counter ∧ counter_amount.isSome then
      let counterOffer : Offer :=
        { job_id := offer.job_id, from_user_id := current_user,
          to_user_id := offer.from_user_id, amount := counter_amount.getD 0,
          message := counter_message, status := .pending }
      .ok (offer1, job, [counterOffer])
    else
      .ok (offer1, job, [])

/-- Counterexample to C5 at a concrete input.  Offer 1 → 2 (amount 50) on a
job in `offered` status, accepted by its recipient (user 2): the worker
assigned is `to_user_id = 2`, the accepting recipient, not the offer's
sender (user 1) as the claim states.  Moreover, for a job still in
`requested` status, acceptance does not transition to `assigned` at all:
`assigned` is not in the transition table's allowed set for `requested`, so
the request fails with InvalidTransition. -/
theorem C5_counterexample :
    (respond_to_offer 2
        { job_id := 9, from_user_id := 1, to_user_id := 2, amount := 50,
          message := none, status := .pending }
        { status := .offered, employer_id := 3, worker_id := none,
          agreed_price := none, assigned_at := none, completed_at := none,
          updated_at := 0, title := "fix sink", token_cost := 2 }
        .accepted none none 7).map (fun r => r.2.1.worker_id) = .ok (some 2) ∧
    (some 2 : Option Nat) ≠ some 1 ∧
    respond_to_offer 2
        { job_id := 9, from_user_id := 1, to_user_id := 2, amount := 50,
          message := none, status := .pending }
        { status := .requested, employer_id := 3, worker_id := none,
          agreed_price := none, assigned_at := none, completed_at := none,
          updated_at := 0, title := "fix sink", token_cost := 2 }
        .accepted none none 7 =
      .error (invalidTransitionErr .requested .assigned) := by
  refine ⟨rfl, by simp, rfl⟩

/-- C5 (amended): accepting a pending offer on a job in `offered` status
sets `agreed_price` to the offer amount and transitions the job to
`assigned` with the accepting recipient (`offer.to_user_id`) assigned as
worker; on a job still in `requested` status, acceptance fails with
InvalidTransition and the job is not transitioned. -/
theorem C5_offer_acceptance (current_user : Nat) (offer : Offer) (job : Job)
    (counter_amount : Option Int) (counter_message : Option String) (now : Nat)
    (hto : offer.to_user_id = current_user)
    (hpending : offer.status = .pending) :
    (job.status = .offered →
      respond_to_offer current_user offer job .accepted counter_amount
          counter_message now =
        .ok ({ offer with status := .accepted },
          { job with
            status := .assigned
            agreed_price := some offer.amount
            worker_id := some offer.to_user_id
            assigned_at := some now
            updated_at := now }, [])) ∧
    (job.status = .requested →
      respond_to_offer current_user offer job .accepted counter_amount
          counter_message now =
        .error (invalidTransitionErr .requested .assigned)) := by
  constructor
  · intro hoff
    simp [respond_to_offer, transition_job, hto, hoff, VALID_TRANSITIONS]
  · intro hreq
    simp [respond_to_offer, transition_job, hto, hreq, VALID_TRANSITIONS,
      invalidTransitionErr]

/-- Witness for C5 (amended) at a concrete accepted offer. -/
theorem C5_offer_acceptance_witness :
    (({ status := .offered, employer_id := 3, worker_id := none,
        agreed_price := none, assigned_at := none, completed_at := none,
        updated_at := 0, title := "fix sink", token_cost := 2 } : Job).status = .offered →
      respond_to_offer 2
          { job_id := 9, from_user_id := 1, to_user_id := 2, amount := 50,
            message := none, status := .pending }
          { status := .offered, employer_id := 3, worker_id := none,
            agreed_price := none, assigned_at := none, completed_at := none,
            updated_at := 0, title := "fix sink", token_cost := 2 }
          .accepted none none 7 =
        .ok ({ job_id := 9, from_user_id := 1, to_user_id := 2, amount := 50,
               message := none, status := .accepted },
          { status := .assigned, employer_id := 3, worker_id := some 2,
            agreed_price := some 50, assigned_at := some 7, completed_at := none,
            updated_at := 7, title := "fix sink", token_cost := 2 }, [])) ∧
    (({ status := .offered, employer_id := 3, worker_id := none,
        agreed_price := none, assigned_at := none, completed_at := none,
        updated_at := 0, title := "fix sink", token_cost := 2 } : Job).status = .requested →
      respond_to_offer 2
          { job_id := 9, from_user_id := 1, to_user_id := 2, amount := 50,
            message := none, status := .pending }
          { status := .offered, employer_id := 3, worker_id := none,
            agreed_price := none, assigned_at := none, completed_at := none,
            updated_at := 0, title := "fix sink", token_cost := 2 }
          .accepted none none 7 =
        .error (invalidTransitionErr .requested .assigned)) :=
  C5_offer_acceptance 2
    { job_id := 9, from_user_id := 1, to_user_id := 2, amount := 50,
      message := none, status := .pending }
    { status := .offered, employer_id := 3, worker_id := none,
      agreed_price := none, assigned_at := none, completed_at := none,
      updated_at := 0, title := "fix sink", token_cost := 2 }
    none none 7 rfl rfl

/-- Python's `str.upper()` for the ASCII status strings involved,
character by character. -/
def pyUpper (s : String) : String := ⟨s.data.map Char.toUpper⟩

/-- `PaymentStatus` enum from `app/models/payment.py`. -/
inductive PaymentStatus where
  | pending
  | completed
  | failed
  | cancelled
deriving DecidableEq, Repr

/-- A `payments` row (`app/models/payment.py`, `Payment`) restricted to the
fields the settlement paths read and write. -/
structure Payment where
  id : Nat
  status : PaymentStatus
  tokens_purchased : Int
  pesepay_reference : Option String
  pesepay_poll_url : Option String
deriving DecidableEq, Repr

/-- The ledger credit every settlement path performs:
`credit_tokens(db, payment.user_id, int(payment.tokens_purchased),
tx_type=PURCHASE, ..., reference_id=str(payment.id))`. -/
def settlementCredit (p : Payment) (s : Option TokenWallet) : Option TokenWallet :=
  (credit_tokens_store s p.tokens_purchased .purchase
    ("Purchased " ++ toString p.tokens_purchased ++ " tokens")
    (some (toString p.id))).2

/-- `pesepay_webhook` (routes/payments.py, lines 24-64), for a body that
matches an existing payment: on `transactionStatus == "SUCCESS"` (after
upper-casing) the payment is marked completed and the wallet credited —
with no check of the payment's current status; on `"FAILED"` it is marked
failed; otherwise it is reset to pending.  Returns the updated payment row
and wallet store. -/
def pesepay_webhook (transactionStatus : String) (p : Payment)
    (s : Option TokenWallet) : Payment × Option TokenWallet :=
  let tx := pyUpper transactionStatus
  if tx = "SUCCESS" then
    ({ p with status := .completed }, settlementCredit p s)
  else if tx = "FAILED" then
    ({ p with status := .failed }, s)
  else
    ({ p with status := .pending }, s)

/-- `_poll_and_complete_payment` (routes/tokens.py, lines 52-98): the
background task re-reads the payment and returns untouched unless it is
still pending; `resultStatus` is the `"SUCCESS" | "FAILED" | "PENDING"`
verdict of `poll_until_complete`. -/
def poll_and_complete_payment (resultStatus : String) (p : Payment)
    (s : Option TokenWallet) : Payment × Option TokenWallet :=
  if p.status ≠ .pending then (p, s)
  else if resultStatus = "SUCCESS" then
    ({ p with status := .completed }, settlementCredit p s)
  else if resultStatus = "FAILED" then
    ({ p with status := .failed }, s)
  else
    (p, s)

/-- `check_purchase_status` (routes/tokens.py, lines 160-201): the
client-triggered status check polls the gateway only when the payment is
still pending and has a gateway reference; `transactionStatus` is the
provider status snapshot. -/
def check_purchase_status (transactionStatus : String) (p : Payment)
    (s : Option TokenWallet) : Payment × Option TokenWallet :=
  if p.status = .pending ∧ p.pesepay_reference.isSome then
    let tx := pyUpper transactionStatus
    if tx = "SUCCESS" ∨ tx = "PAID" then
      ({ p with status := .completed }, settlementCredit p s)
    else if tx = "FAILED" ∨ tx = "CANCELLED" ∨ tx = "DECLINED" then
      ({ p with status := .failed }, s)
    else (p, s)
  else (p, s)

/-- Counterexample to C2 at a concrete input: a payment already
`completed` for 5 tokens, wallet fresh (balance 0).  A second webhook
callback with `transactionStatus = "SUCCESS"` credits the wallet again
(balance becomes 5 and a new purchase transaction is appended), because
`pesepay_webhook` never checks the payment's current status before
crediting — so invoking that settlement path a second time does not
perform "no ledger credit" as the claim states. -/
theorem C2_counterexample :
    (pesepay_webhook "SUCCESS"
        { id := 1, status := .completed, tokens_purchased := 5,
          pesepay_reference := some "ref", pesepay_poll_url := some "url" }
        (some freshWallet)).2 ≠ some freshWallet ∧
    ((pesepay_webhook "SUCCESS"
        { id := 1, status := .completed, tokens_purchased := 5,
          pesepay_reference := some "ref", pesepay_poll_url := some "url" }
        (some freshWallet)).2.map TokenWallet.balance) = some 5 := by
  constructor
  · decide
  · rfl

/-- C2 (amended): the background poll completion and the client-triggered
status check are idempotent — invoked with any provider status for a
Payment whose status is already `completed`, they perform no ledger credit
and leave payment and wallet unchanged (they credit only from `pending`).
The webhook handler is not: on every upper-cased `"SUCCESS"` callback it
marks the payment completed and credits the wallet again, regardless of the
payment's current status. -/
theorem C2_settlement_idempotence (p : Payment) (s : Option TokenWallet)
    (raw : String) (hdone : p.status = .completed) :
    poll_and_complete_payment raw p s = (p, s) ∧
    check_purchase_status raw p s = (p, s) ∧
    (pyUpper raw = "SUCCESS" →
      pesepay_webhook raw p s =
        ({ p with status := .completed }, settlementCredit p s)) := by
  refine ⟨?_, ?_, ?_⟩
  · simp [poll_and_complete_payment, hdone]
  · simp [check_purchase_status, hdone]
  · intro hup
    simp [pesepay_webhook, hup]

/-- Witness for C2 (amended): a completed payment, fresh wallet, raw
status "SUCCESS". -/
theorem C2_settlement_idempotence_witness :
    poll_and_complete_payment "SUCCESS"
        { id := 1, status := .completed, tokens_purchased := 5,
          pesepay_reference := some "ref", pesepay_poll_url := some "url" }
        (some freshWallet) =
      ({ id := 1, status := .completed, tokens_purchased := 5,
         pesepay_reference := some "ref", pesepay_poll_url := some "url" },
        some freshWallet) ∧
    check_purchase_status "SUCCESS"
        { id := 1, status := .completed, tokens_purchased := 5,
          pesepay_reference := some "ref", pesepay_poll_url := some "url" }
        (some freshWallet) =
      ({ id := 1, status := .completed, tokens_purchased := 5,
         pesepay_reference := some "ref", pesepay_poll_url := some "url" },
        some freshWallet) ∧
    (pyUpper "SUCCESS" = "SUCCESS" →
      pesepay_webhook "SUCCESS"
          { id := 1, status := .completed, tokens_purchased := 5,
            pesepay_reference := some "ref", pesepay_poll_url := some "url" }
          (some freshWallet) =
        ({ id := 1, status := .completed, tokens_purchased := 5,
           pesepay_reference := some "ref", pesepay_poll_url := some "url" },
          settlementCredit
            { id := 1, status := .completed, tokens_purchased := 5,
              pesepay_reference := some "ref", pesepay_poll_url := some "url" }
            (some freshWallet))) :=
  C2_settlement_idempotence
    { id := 1, status := .completed, tokens_purchased := 5,
      pesepay_reference := some "ref", pesepay_poll_url := some "url" }
    (some freshWallet) "SUCCESS" rfl

/-- The dict `poll_until_complete` returns: its `"status"` verdict plus the
last provider snapshot (`"data"`), tracked via its `transactionStatus`
string. -/
structure PollResult where
  status : String
  data : String
deriving DecidableEq, Repr

/-- The provider reported success: `tx_status in ("SUCCESS", "PAID")` after
upper-casing. -/
def isSuccessTx (raw : String) : Prop :=
  pyUpper raw = "SUCCESS" ∨ pyUpper raw = "PAID"

/-- The provider reported failure:
`tx_status in ("FAILED", "CANCELLED", "DECLINED")` after upper-casing. -/
def isFailureTx (raw : String) : Prop :=
  pyUpper raw = "FAILED" ∨ pyUpper raw = "CANCELLED" ∨ pyUpper raw = "DECLINED"

/-- Neither terminal set matched: the poll is still pending. -/
def isPendingTx (raw : String) : Prop := ¬ isSuccessTx raw ∧ ¬ isFailureTx raw

instance (raw : String) : Decidable (isSuccessTx raw) := by
  unfold isSuccessTx; infer_instance

instance (raw : String) : Decidable (isFailureTx raw) := by
  unfold isFailureTx; infer_instance

instance (raw : String) : Decidable (isPendingTx raw) := by
  unfold isPendingTx; infer_instance

/-- The loop of `poll_until_complete` (pesepay.py, lines 155-175).
`polls n` is the `transactionStatus` string reported by the `n`-th call to
`check_payment_status`; `attempt` is the index of the next poll,
`remaining` the loop iterations left, and `last` the value of the Python
local `status` (the most recent snapshot, absent before the first
iteration).  On budget exhaustion the source returns
`{"status": "PENDING", "data": status}`; if no iteration ever ran, `status`
was never assigned and the line raises `UnboundLocalError`, modelled as
`none`. -/
def pollLoop (polls : Nat → String) :
    Nat → Nat → Option String → Option PollResult
  | _, 0, last => last.map fun s => { status := "PENDING", data := s }
  | attempt, remaining + 1, _ =>
    let s := polls attempt
    let tx := pyUpper s
    if tx = "SUCCESS" ∨ tx = "PAID" then
      some { status := "SUCCESS", data := s }
    else if tx = "FAILED" ∨ tx = "CANCELLED" ∨ tx = "DECLINED" then
      some { status := "FAILED", data := s }
    else
      pollLoop polls (attempt + 1) remaining (some s)

/-- `poll_until_complete(reference, max_attempts, interval)`: the sleeping
interval has no observable effect in this model. -/
def poll_until_complete (polls : Nat → String) (max_attempts : Nat) :
    Option PollResult :=
  pollLoop polls 0 max_attempts none

theorem isFailureTx_not_success (raw : String) (h : isFailureTx raw) :
    ¬ isSuccessTx raw := by
  rcases h with h | h | h <;> rw [isSuccessTx, h] <;> decide

theorem pollLoop_all_pending (polls : Nat → String) :
    ∀ (r a : Nat) (s0 : String), (∀ j < r, isPendingTx (polls (a + j))) →
      pollLoop polls a r (some s0) =
        some { status := "PENDING",
               data := if r = 0 then s0 else polls (a + r - 1) } := by
  intro r
  induction r with
  | zero => intro a s0 _; rfl
  | succ r ih =>
    intro a s0 h
    have h0 : isPendingTx (polls a) := by
      have := h 0 (Nat.succ_pos r); simpa using this
    obtain ⟨hs, hf⟩ := h0
    rw [isSuccessTx] at hs
    rw [isFailureTx] at hf
    have step : pollLoop polls a (r + 1) (some s0) =
        pollLoop polls (a + 1) r (some (polls a)) := by
      simp only [pollLoop]
      rw [if_neg hs, if_neg (by tauto)]
    rw [step, ih (a + 1) (polls a) (fun j hj => by
      have := h (j + 1) (by omega)
      simpa [Nat.add_assoc, Nat.add_comm 1 j] using this)]
    rw [if_neg (Nat.succ_ne_zero r)]
    rcases Nat.eq_zero_or_pos r with hr | hr
    · subst hr
      simp
    · rw [if_neg (by omega : ¬ r = 0)]
      have harg : a + 1 + r - 1 = a + (r + 1) - 1 := by omega
      rw [harg]

theorem pollLoop_first_terminal (polls : Nat → String) :
    ∀ (i r a : Nat) (last : Option String), i < r →
      (∀ j < i, isPendingTx (polls (a + j))) →
      (isSuccessTx (polls (a + i)) →
        pollLoop polls a r last =
          some { status := "SUCCESS", data := polls (a + i) }) ∧
      (isFailureTx (polls (a + i)) →
        pollLoop polls a r last =
          some { status := "FAILED", data := polls (a + i) }) := by
  intro i
  induction i with
  | zero =>
    intro r a last hir _
    obtain ⟨r', rfl⟩ : ∃ r', r = r' + 1 := ⟨r - 1, by omega⟩
    constructor
    · intro hsucc
      simp only [pollLoop]
      rw [if_pos (by simpa [isSuccessTx] using hsucc)]
      simp
    · intro hfail
      have hns := isFailureTx_not_success _ hfail
      simp only [pollLoop]
      rw [if_neg (by simpa [isSuccessTx] using hns),
        if_pos (by simpa [isFailureTx] using hfail)]
      simp
  | succ i ih =>
    intro r a last hir hpend
    obtain ⟨r', rfl⟩ : ∃ r', r = r' + 1 := ⟨r - 1, by omega⟩
    have h0 : isPendingTx (polls a) := by
      have := hpend 0 (Nat.succ_pos i); simpa using this
    obtain ⟨hs, hf⟩ := h0
    rw [isSuccessTx] at hs
    rw [isFailureTx] at hf
    have step : pollLoop polls a (r' + 1) last =
        pollLoop polls (a + 1) r' (some (polls a)) := by
      simp only [pollLoop]
      rw [if_neg hs, if_neg (by tauto)]
    have hshift : a + (i + 1) = (a + 1) + i := by omega
    have := ih r' (a + 1) (some (polls a)) (by omega) (fun j hj => by
      have := hpend (j + 1) (by omega)
      simpa [Nat.add_assoc, Nat.add_comm 1 j] using this)
    rw [hshift, step]
    exact this

/-- Counterexample to C7 as stated: with `max_attempts = 0` the `for` body
never runs, and the final `return {"status": "PENDING", "data": status}`
reads the never-assigned local `status`, so the call raises
`UnboundLocalError` (modelled by `none`) instead of returning a pending
result — the claim quantifies over every `max_attempts`. -/
theorem C7_counterexample :
    poll_until_complete (fun _ => "PENDING") 0 = none ∧
    (poll_until_complete (fun _ => "PENDING") 0).isSome = false := ⟨rfl, rfl⟩

/-- C7 (amended): for `max_attempts ≥ 1`, `poll_until_complete` returns
status SUCCESS as soon as a poll reports a provider status in
{SUCCESS, PAID}, returns FAILED as soon as a poll reports one of
{FAILED, CANCELLED, DECLINED}, and returns PENDING (not FAILED) when the
attempt budget is exhausted without a terminal result.  (With
`max_attempts = 0` the source raises `UnboundLocalError` instead.) -/
theorem C7_poll_termination (polls : Nat → String) (max_attempts : Nat)
    (hpos : 1 ≤ max_attempts) :
    (∀ i < max_attempts, (∀ j < i, isPendingTx (polls j)) →
      (isSuccessTx (polls i) →
        poll_until_complete polls max_attempts =
          some { status := "SUCCESS", data := polls i }) ∧
      (isFailureTx (polls i) →
        poll_until_complete polls max_attempts =
          some { status := "FAILED", data := polls i })) ∧
    ((∀ j < max_attempts, isPendingTx (polls j)) →
      poll_until_complete polls max_attempts =
        some { status := "PENDING", data := polls (max_attempts - 1) }) := by
  constructor
  · intro i hi hpend
    have := pollLoop_first_terminal polls i max_attempts 0 none hi
      (fun j hj => by simpa using hpend j hj)
    simpa [poll_until_complete] using this
  · intro hpend
    obtain ⟨r', rfl⟩ : ∃ r', max_attempts = r' + 1 := ⟨max_attempts - 1, by omega⟩
    have h0 : isPendingTx (polls 0) := hpend 0 (Nat.succ_pos r')
    obtain ⟨hs, hf⟩ := h0
    rw [isSuccessTx] at hs
    rw [isFailureTx] at hf
    have step : poll_until_complete polls (r' + 1) =
        pollLoop polls 1 r' (some (polls 0)) := by
      simp only [poll_until_complete, pollLoop]
      rw [if_neg hs, if_neg (by tauto)]
    rw [step, pollLoop_all_pending polls r' 1 (polls 0) (fun j hj => by
      have := hpend (j + 1) (by omega)
      simpa [Nat.add_comm 1 j] using this)]
    rcases Nat.eq_zero_or_pos r' with hr | hr
    · subst hr
      simp
    · rw [if_neg (by omega : ¬ r' = 0)]
      have harg : 1 + r' - 1 = r' + 1 - 1 := by omega
      rw [harg]

/-- Witness for C7 (amended): one attempt, every poll pending — the budget
is exhausted and the verdict is PENDING. -/
theorem C7_poll_termination_witness :
    poll_until_complete (fun _ => "PENDING") 1 =
      some { status := "PENDING", data := "PENDING" } :=
  (C7_poll_termination (fun _ => "PENDING") 1 (by decide)).2
    (fun j _ => by decide)

/-- One live WebSocket connection: all the broadcast loop observes of it is
whether `await ws.send_text(message)` succeeds or raises. -/
structure WsConn where
  send_text : String → Except String Unit

/-- `active_connections.get(user_id, [])` over the module-level registry
(notification_service.py, lines 13 and 55), modelled as an association
list. -/
def registryGet (reg : List (String × List WsConn)) (user_id : String) :
    List WsConn :=
  match reg.lookup user_id with
  | some conns => conns
  | none => []

/-- Whether a send to this connection succeeds. -/
def sendOk (ws : WsConn) (message : String) : Bool :=
  match ws.send_text message with
  | .ok _ => true
  | .error _ => false

/-- The `for ws in connections` loop of `broadcast_to_user`
(notification_service.py, lines 56-60).  Each iteration wraps
`await ws.send_text(json.dumps(message))` in `try: ... except Exception:
pass`, so a raising send is swallowed (recorded as `false`) and the loop
continues; an exception escaping an iteration would abort the loop with
`.error`.  Returns the per-connection outcomes in order. -/
def sendLoop (message : String) : List WsConn → Except String (List Bool)
  | [] => .ok []
  | ws :: rest =>
    let attempt : Except String Bool :=
      match ws.send_text message with
      | .ok _ => .ok true
      | .error _ => .ok false
    match attempt with
    | .error e => .error e
    | .ok b =>
      match sendLoop message rest with
      | .error e => .error e
      | .ok bs => .ok (b :: bs)

/-- `broadcast_to_user(user_id, message)` (notification_service.py, lines
52-60). -/
def broadcast_to_user (reg : List (String × List WsConn)) (user_id : String)
    (message : String) : Except String (List Bool) :=
  sendLoop message (registryGet reg user_id)

theorem sendLoop_ok (message : String) (conns : List WsConn) :
    sendLoop message conns = .ok (conns.map (fun ws => sendOk ws message)) := by
  induction conns with
  | nil => rfl
  | cons ws rest ih =>
    cases h : ws.send_text message with
    | ok u =>
      have hw : sendOk ws message = true := by simp [sendOk, h]
      simp [sendLoop, h, ih, hw]
    | error e =>
      have hw : sendOk ws message = false := by simp [sendOk, h]
      simp [sendLoop, h, ih, hw]

/-- C9: Broadcast fault isolation.  `broadcast_to_user` attempts delivery
to every connection currently registered for the user (one recorded
outcome per registered connection, in order, each outcome depending only on
that connection); a send failure on one connection is swallowed and does
not prevent the remaining attempts nor raise to the caller (the result is
always `.ok`); with zero registered connections the call completes with no
deliveries. -/
theorem C9_broadcast_fault_isolation (reg : List (String × List WsConn))
    (user_id : String) (message : String) :
    broadcast_to_user reg user_id message =
      .ok ((registryGet reg user_id).map (fun ws => sendOk ws message)) ∧
    (registryGet reg user_id = [] →
      broadcast_to_user reg user_id message = .ok []) := by
  refine ⟨sendLoop_ok message (registryGet reg user_id), ?_⟩
  intro h
  simp [broadcast_to_user, h, sendLoop]

/-- `lat_range = radius_km / 111.0` (job_service.py line 69;
location_service.py line 57).  Coordinates are modelled as exact
rationals. -/
def lat_range (radius_km : ℚ) : ℚ := radius_km / 111

/-- `lng_range` as computed by `get_nearby_jobs` (job_service.py line 70):
`radius_km / (111.0 * abs(max(0.01, math.cos(math.radians(latitude)))))`,
with `cosLat` standing for `math.cos(math.radians(latitude))`. -/
def jobs_lng_range (radius_km cosLat : ℚ) : ℚ :=
  radius_km / (111 * |max (1/100) cosLat|)

/-- `lng_range` as computed by `get_nearby_workers` / `get_heatmap_data`
(location_service.py lines 58-59):
`radius_km / (111.0 * max(0.01, abs(math.cos(math.radians(latitude)))))`. -/
def workers_lng_range (radius_km cosLat : ℚ) : ℚ :=
  radius_km / (111 * max (1/100) |cosLat|)

/-- SQL `BETWEEN` is inclusive on both ends. -/
def between (x lo hi : ℚ) : Prop := lo ≤ x ∧ x ≤ hi

/-- The coordinate filter of `get_nearby_jobs` (job_service.py lines
72-79): the candidate job's stored point lies in the bounding box around
the centre.  The non-geometric filters (status, non-null coordinates) are
outside this predicate. -/
def jobInBox (latitude longitude radius_km cosLat jLat jLng : ℚ) : Prop :=
  between jLat (latitude - lat_range radius_km) (latitude + lat_range radius_km) ∧
  between jLng (longitude - jobs_lng_range radius_km cosLat)
    (longitude + jobs_lng_range radius_km cosLat)

/-- The coordinate filter of `get_nearby_workers` (location_service.py
lines 61-73); the role/online/active/profession filters are outside this
predicate. -/
def workerInBox (latitude longitude radius_km cosLat wLat wLng : ℚ) : Prop :=
  between wLat (latitude - lat_range radius_km) (latitude + lat_range radius_km) ∧
  between wLng (longitude - workers_lng_range radius_km cosLat)
    (longitude + workers_lng_range radius_km cosLat)

/-- Modelled from the spec (§4.3, §8): north–south distance in km between
two latitudes under the equirectangular approximation (~111 km per degree
of latitude). -/
def northSouthKm (lat1 lat2 : ℚ) : ℚ := 111 * |lat1 - lat2|

/-- Modelled from the spec (§4.3, §8): east–west distance in km between two
longitudes at a centre latitude whose cosine is `cosLat`. -/
def eastWestKm (cosLat lng1 lng2 : ℚ) : ℚ := 111 * cosLat * |lng1 - lng2|

/-- C6: Proximity bounding box.  For a centre with latitude in
[-90°, 90°] (so `cosLat ∈ [0, 1]`) and radius > 0: both nearby queries use
latitude delta `radius_km / 111` and longitude delta
`radius_km / (111 * max(0.01, |cosLat|))`; a candidate at the exact centre
point is always inside the box (hence included whenever it satisfies the
query's other filters); and a candidate at distance greater than
`radius_km` from the centre along a cardinal axis is excluded. -/
theorem C6_proximity_bounding_box (latitude longitude radius_km cosLat : ℚ)
    (hr : 0 < radius_km) (hc0 : 0 ≤ cosLat) (hc1 : cosLat ≤ 1) :
    (jobs_lng_range radius_km cosLat =
        radius_km / (111 * max (1/100) |cosLat|) ∧
      workers_lng_range radius_km cosLat =
        radius_km / (111 * max (1/100) |cosLat|)) ∧
    (jobInBox latitude longitude radius_km cosLat latitude longitude ∧
      workerInBox latitude longitude radius_km cosLat latitude longitude) ∧
    (∀ pLat pLng : ℚ,
      (radius_km < northSouthKm pLat latitude →
        ¬ jobInBox latitude longitude radius_km cosLat pLat pLng ∧
        ¬ workerInBox latitude longitude radius_km cosLat pLat pLng) ∧
      (radius_km < eastWestKm cosLat pLng longitude →
        ¬ jobInBox latitude longitude radius_km cosLat pLat pLng ∧
        ¬ workerInBox latitude longitude radius_km cosLat pLat pLng)) := by
  have habs : |cosLat| = cosLat := abs_of_nonneg hc0
  have hM : (0:ℚ) < max (1/100) cosLat :=
    lt_of_lt_of_le (by norm_num) (le_max_left _ _)
  have hMabs : |max (1/100 : ℚ) cosLat| = max (1/100) cosLat := abs_of_pos hM
  have hjr : jobs_lng_range radius_km cosLat =
      radius_km / (111 * max (1/100) cosLat) := by
    rw [jobs_lng_range, hMabs]
  have hwr : workers_lng_range radius_km cosLat =
      radius_km / (111 * max (1/100) cosLat) := by
    rw [workers_lng_range, habs]
  have hden : (0:ℚ) < 111 * max (1/100) cosLat := by positivity
  have hrangepos : 0 < radius_km / (111 * max (1/100) cosLat) :=
    div_pos hr hden
  have hlatpos : 0 < lat_range radius_km := by
    rw [lat_range]; positivity
  refine ⟨⟨by rw [hjr, habs], by rw [hwr, habs]⟩, ?_, ?_⟩
  · constructor
    · exact ⟨⟨by linarith, by linarith⟩, by rw [hjr]; exact ⟨by linarith, by linarith⟩⟩
    · exact ⟨⟨by linarith, by linarith⟩, by rw [hwr]; exact ⟨by linarith, by linarith⟩⟩
  · intro pLat pLng
    constructor
    · intro hd
      rw [northSouthKm] at hd
      have hkey : ∀ lo hi : ℚ, between pLat (latitude - lat_range radius_km)
          (latitude + lat_range radius_km) → False := by
        intro _ _ ⟨h1, h2⟩
        have hle : |pLat - latitude| ≤ radius_km / 111 := by
          rw [abs_le]
          constructor <;> · rw [lat_range] at h1 h2; linarith
        have := (le_div_iff (by norm_num : (0:ℚ) < 111)).mp hle
        linarith
      exact ⟨fun h => hkey 0 0 h.1, fun h => hkey 0 0 h.1⟩
    · intro hd
      rw [eastWestKm] at hd
      have hA : 0 ≤ |pLng - longitude| := abs_nonneg _
      have hcM : cosLat ≤ max (1/100) cosLat := le_max_right _ _
      have hkey : |pLng - longitude| ≤ radius_km / (111 * max (1/100) cosLat) →
          False := by
        intro hle
        have h1 := (le_div_iff hden).mp hle
        have h2 : 111 * cosLat * |pLng - longitude| ≤
            111 * max (1/100) cosLat * |pLng - longitude| := by
          apply mul_le_mul_of_nonneg_right _ hA
          nlinarith
        nlinarith
      constructor
      · rintro ⟨-, hlng⟩
        rw [hjr] at hlng
        obtain ⟨h1, h2⟩ := hlng
        exact hkey (by rw [abs_le]; constructor <;> linarith)
      · rintro ⟨-, hlng⟩
        rw [hwr] at hlng
        obtain ⟨h1, h2⟩ := hlng
        exact hkey (by rw [abs_le]; constructor <;> linarith)

/-- Witness for C6: centre (0, 0), radius 50 km, `cosLat = 1` (the
equator). -/
theorem C6_proximity_bounding_box_witness :
    (jobs_lng_range 50 1 = 50 / (111 * max (1/100) |(1:ℚ)|) ∧
      workers_lng_range 50 1 = 50 / (111 * max (1/100) |(1:ℚ)|)) ∧
    (jobInBox 0 0 50 1 0 0 ∧ workerInBox 0 0 50 1 0 0) ∧
    (∀ pLat pLng : ℚ,
      (50 < northSouthKm pLat 0 →
        ¬ jobInBox 0 0 50 1 pLat pLng ∧ ¬ workerInBox 0 0 50 1 pLat pLng) ∧
      (50 < eastWestKm 1 pLng 0 →
        ¬ jobInBox 0 0 50 1 pLat pLng ∧ ¬ workerInBox 0 0 50 1 pLat pLng)) :=
  C6_proximity_bounding_box 0 0 50 1 (by norm_num) (by norm_num) (by norm_num)

/-- `Crypto.Util.Padding.pad(raw, AES.block_size)` with PKCS#7 and block
size 16: append `n = 16 - len % 16` copies of the byte `n`
(`1 ≤ n ≤ 16`). -/
def pkcs7pad (data : List Nat) : List Nat :=
  let n := 16 - data.length % 16
  data ++ List.replicate n n

/-- `Crypto.Util.Padding.unpad(decrypted, AES.block_size)`: validate that
the length is a multiple of the block size and the trailing `n` bytes all
equal `n` with `1 ≤ n ≤ 16`, then strip them; `none` models the ValueError
on malformed padding. -/
def pkcs7unpad (data : List Nat) : Option (List Nat) :=
  if data.length % 16 = 0 then
    match data.getLast? with
    | none => none
    | some n =>
      if n = 0 ∨ 16 < n then none
      else if (data.drop (data.length - n)).all (fun x => x = n) then
        some (data.take (data.length - n))
      else none
  else none

theorem pkcs7_roundtrip (data : List Nat) :
    pkcs7unpad (pkcs7pad data) = some data := by
  have hn1 : 1 ≤ 16 - data.length % 16 := by omega
  have hn16 : 16 - data.length % 16 ≤ 16 := by omega
  have hpad : pkcs7pad data =
      (data ++ List.replicate (16 - data.length % 16 - 1) (16 - data.length % 16)) ++
        [16 - data.length % 16] := by
    rw [pkcs7pad]
    obtain ⟨m, hm⟩ : ∃ m, 16 - data.length % 16 = m + 1 :=
      ⟨16 - data.length % 16 - 1, by omega⟩
    rw [hm, List.replicate_succ', List.append_assoc]
    simp
  have hlen : (pkcs7pad data).length = data.length + (16 - data.length % 16) := by
    simp [pkcs7pad]
  have hmod : (pkcs7pad data).length % 16 = 0 := by
    rw [hlen]; omega
  have hlast : (pkcs7pad data).getLast? = some (16 - data.length % 16) := by
    rw [hpad, List.getLast?_concat]
  have hsub : (pkcs7pad data).length - (16 - data.length % 16) = data.length := by
    rw [hlen]; omega
  have hdrop : (pkcs7pad data).drop data.length =
      List.replicate (16 - data.length % 16) (16 - data.length % 16) := by
    rw [pkcs7pad]
    have := List.drop_left data
      (List.replicate (16 - data.length % 16) (16 - data.length % 16))
    simpa using this
  have htake : (pkcs7pad data).take data.length = data := by
    rw [pkcs7pad]
    have := List.take_left data
      (List.replicate (16 - data.length % 16) (16 - data.length % 16))
    simpa using this
  rw [pkcs7unpad, if_pos hmod, hlast]
  have hcond : ¬ (16 - data.length % 16 = 0 ∨ 16 < 16 - data.length % 16) := by
    omega
  simp [hcond, hsub, hdrop, htake, List.all_eq_true, List.mem_replicate]

/-- Split a byte string into the 16-byte blocks over which `AES.MODE_CBC`
chains.  `fuel` makes the recursion structural; `toBlocks` supplies
`fuel = length`. -/
def toBlocksF : Nat → List Nat → List (List Nat)
  | 0, _ => []
  | _ + 1, [] => []
  | fuel + 1, x :: xs => (x :: xs).take 16 :: toBlocksF fuel ((x :: xs).drop 16)

/-- The 16-byte blocks of a byte string. -/
def toBlocks (l : List Nat) : List (List Nat) := toBlocksF l.length l

/-- Byte-wise XOR of two blocks. -/
def xorBlock (a b : List Nat) : List Nat :=
  List.zipWith (fun x y => x ^^^ y) a b

/-- What `AES.new(key, AES.MODE_CBC, iv).encrypt` does to the padded
plaintext, with `E` the AES-256 single-block permutation for the key:
each plaintext block is XORed with the previous ciphertext block
(initially the IV) and then passed through `E`. -/
def cbcEncryptBlocks (E : List Nat → List Nat) :
    List Nat → List (List Nat) → List (List Nat)
  | _, [] => []
  | prev, p :: rest =>
    let c := E (xorBlock p prev)
    c :: cbcEncryptBlocks E c rest

/-- What `AES.new(key, AES.MODE_CBC, iv).decrypt` does, with `D` the
inverse single-block permutation. -/
def cbcDecryptBlocks (D : List Nat → List Nat) :
    List Nat → List (List Nat) → List (List Nat)
  | _, [] => []
  | prev, c :: rest => xorBlock (D c) prev :: cbcDecryptBlocks D c rest

theorem xorBlock_length (a b : List Nat) :
    (xorBlock a b).length = min a.length b.length := by
  simp [xorBlock]

theorem xorBlock_cancel (a b : List Nat) (h : a.length = b.length) :
    xorBlock (xorBlock a b) b = a := by
  induction a generalizing b with
  | nil => cases b <;> simp_all [xorBlock]
  | cons x xs ih =>
    cases b with
    | nil => simp at h
    | cons y ys =>
      simp only [xorBlock, List.zipWith_cons_cons]
      rw [Nat.xor_cancel_right]
      have := ih ys (by simpa using h)
      simp only [xorBlock] at this
      rw [this]

theorem xorBlock_lt (a b : List Nat) (ha : ∀ x ∈ a, x < 256)
    (hb : ∀ x ∈ b, x < 256) : ∀ x ∈ xorBlock a b, x < 256 := by
  induction a generalizing b with
  | nil => simp [xorBlock]
  | cons x xs ih =>
    cases b with
    | nil => simp [xorBlock]
    | cons y ys =>
      intro z hz
      simp only [xorBlock, List.zipWith_cons_cons, List.mem_cons] at hz
      rcases hz with rfl | hz
      · have hx : x < 2 ^ 8 := by
          have := ha x (by simp); omega
        have hy : y < 2 ^ 8 := by
          have := hb y (by simp); omega
        have := Nat.xor_lt_two_pow hx hy
        omega
      · exact ih ys (fun u hu => ha u (List.mem_cons_of_mem x hu))
          (fun u hu => hb u (List.mem_cons_of_mem y hu)) z hz

theorem cbc_roundtrip (E D : List Nat → List Nat)
    (hInv : ∀ b : List Nat, b.length = 16 → D (E b) = b)
    (hELen : ∀ b : List Nat, b.length = 16 → (E b).length = 16)
    (blocks : List (List Nat)) :
    ∀ prev : List Nat, prev.length = 16 → (∀ p ∈ blocks, p.length = 16) →
      cbcDecryptBlocks D prev (cbcEncryptBlocks E prev blocks) = blocks := by
  induction blocks with
  | nil => intro prev _ _; rfl
  | cons p rest ih =>
    intro prev hprev hall
    have hp : p.length = 16 := hall p (by simp)
    have hxlen : (xorBlock p prev).length = 16 := by
      rw [xorBlock_length, hp, hprev]; rfl
    simp only [cbcEncryptBlocks, cbcDecryptBlocks]
    rw [hInv _ hxlen, xorBlock_cancel p prev (by rw [hp, hprev])]
    rw [ih (E (xorBlock p prev)) (hELen _ hxlen)
      (fun q hq => hall q (by simp [hq]))]

theorem cbcEncryptBlocks_lengths (E : List Nat → List Nat)
    (hELen : ∀ b : List Nat, b.length = 16 → (E b).length = 16)
    (blocks : List (List Nat)) :
    ∀ prev : List Nat, prev.length = 16 → (∀ p ∈ blocks, p.length = 16) →
      ∀ c ∈ cbcEncryptBlocks E prev blocks, c.length = 16 := by
  induction blocks with
  | nil => intro prev _ _ c hc; simp [cbcEncryptBlocks] at hc
  | cons p rest ih =>
    intro prev hprev hall c hc
    have hp : p.length = 16 := hall p (by simp)
    have hxlen : (xorBlock p prev).length = 16 := by
      rw [xorBlock_length, hp, hprev]; rfl
    simp only [cbcEncryptBlocks, List.mem_cons] at hc
    rcases hc with rfl | hc
    · exact hELen _ hxlen
    · exact ih (E (xorBlock p prev)) (hELen _ hxlen)
        (fun q hq => hall q (by simp [hq])) c hc

theorem cbcEncryptBlocks_bytes (E : List Nat → List Nat)
    (hELen : ∀ b : List Nat, b.length = 16 → (E b).length = 16)
    (hE256 : ∀ b : List Nat, b.length = 16 → (∀ x ∈ b, x < 256) →
      ∀ x ∈ E b, x < 256)
    (blocks : List (List Nat)) :
    ∀ prev : List Nat, prev.length = 16 → (∀ x ∈ prev, x < 256) →
      (∀ p ∈ blocks, p.length = 16) →
      (∀ p ∈ blocks, ∀ x ∈ p, x < 256) →
      ∀ c ∈ cbcEncryptBlocks E prev blocks, ∀ x ∈ c, x < 256 := by
  induction blocks with
  | nil => intro prev _ _ _ _ c hc; simp [cbcEncryptBlocks] at hc
  | cons p rest ih =>
    intro prev hprev hprev256 hall hall256 c hc
    have hp : p.length = 16 := hall p (by simp)
    have hxlen : (xorBlock p prev).length = 16 := by
      rw [xorBlock_length, hp, hprev]; rfl
    have hx256 : ∀ x ∈ xorBlock p prev, x < 256 :=
      xorBlock_lt p prev (hall256 p (by simp)) hprev256
    simp only [cbcEncryptBlocks, List.mem_cons] at hc
    rcases hc with rfl | hc
    · exact hE256 _ hxlen hx256
    · exact ih (E (xorBlock p prev)) (hELen _ hxlen) (hE256 _ hxlen hx256)
        (fun q hq => hall q (by simp [hq]))
        (fun q hq => hall256 q (by simp [hq])) c hc

theorem toBlocksF_flatten :
    ∀ (fuel : Nat) (l : List Nat), l.length ≤ fuel →
      (toBlocksF fuel l).flatten = l := by
  intro fuel
  induction fuel with
  | zero =>
    intro l h
    have : l = [] := List.eq_nil_of_length_eq_zero (by omega)
    subst this; rfl
  | succ fuel ih =>
    intro l h
    cases l with
    | nil => rfl
    | cons x xs =>
      simp only [toBlocksF, List.flatten_cons]
      rw [ih ((x :: xs).drop 16) (by
        simp only [List.length_drop, List.length_cons] at h ⊢
        omega), List.take_append_drop]

theorem toBlocks_flatten (l : List Nat) : (toBlocks l).flatten = l :=
  toBlocksF_flatten l.length l le_rfl

theorem toBlocksF_lengths :
    ∀ (fuel : Nat) (l : List Nat), l.length ≤ fuel → 16 ∣ l.length →
      ∀ b ∈ toBlocksF fuel l, b.length = 16 := by
  intro fuel
  induction fuel with
  | zero =>
    intro l h _ b hb
    have : l = [] := List.eq_nil_of_length_eq_zero (by omega)
    subst this; simp [toBlocksF] at hb
  | succ fuel ih =>
    intro l hle hdvd b hb
    cases l with
    | nil => simp [toBlocksF] at hb
    | cons x xs =>
      have h16 : 16 ≤ (x :: xs).length := by
        have h0 : (x :: xs).length ≠ 0 := by simp
        omega
      simp only [toBlocksF, List.mem_cons] at hb
      rcases hb with rfl | hb
      · simp only [List.length_take]
        omega
      · exact ih ((x :: xs).drop 16) (by
            simp only [List.length_drop, List.length_cons] at hle ⊢
            omega)
          (by
            simp only [List.length_drop, List.length_cons] at hdvd h16 ⊢
            omega) b hb

theorem toBlocks_lengths (l : List Nat) (h : 16 ∣ l.length) :
    ∀ b ∈ toBlocks l, b.length = 16 :=
  toBlocksF_lengths l.length l le_rfl h

theorem toBlocksF_of_blocks :
    ∀ (blocks : List (List Nat)) (fuel : Nat),
      (∀ b ∈ blocks, b.length = 16) → blocks.flatten.length ≤ fuel →
      toBlocksF fuel blocks.flatten = blocks := by
  intro blocks
  induction blocks with
  | nil =>
    intro fuel _ _
    cases fuel <;> rfl
  | cons b rest ih =>
    intro fuel hall hle
    have hb : b.length = 16 := hall b (by simp)
    have hflen : (b :: rest).flatten.length = 16 + rest.flatten.length := by
      simp [hb]
    cases fuel with
    | zero => exfalso; omega
    | succ fuel =>
      obtain ⟨x, xs, rfl⟩ : ∃ x xs, b = x :: xs := by
        cases b with
        | nil => simp at hb
        | cons x xs => exact ⟨x, xs, rfl⟩
      simp only [List.flatten_cons]
      have hstep : (x :: xs) ++ rest.flatten = x :: (xs ++ rest.flatten) := rfl
      rw [hstep, toBlocksF, ← hstep]
      have htake : ((x :: xs) ++ rest.flatten).take 16 = x :: xs := by
        conv_lhs => rw [← hb]
        exact List.take_left _ _
      have hdrop : ((x :: xs) ++ rest.flatten).drop 16 = rest.flatten := by
        conv_lhs => rw [← hb]
        exact List.drop_left _ _
      rw [htake, hdrop, ih fuel (fun q hq => hall q (List.mem_cons_of_mem _ hq))
        (by
          simp only [List.flatten_cons, List.length_append, List.length_cons] at hle hb ⊢
          omega)]

/-- The base64 alphabet (`base64.b64encode`): index 0-25 ↦ A-Z, 26-51 ↦
a-z, 52-61 ↦ 0-9, 62 ↦ plus, 63 ↦ slash. -/
def b64alpha (n : Nat) : Char :=
  if n < 26 then Char.ofNat (65 + n)
  else if n < 52 then Char.ofNat (97 + (n - 26))
  else if n < 62 then Char.ofNat (48 + (n - 52))
  else if n = 62 then '+'
  else '/'

/-- Inverse of the base64 alphabet (`base64.b64decode`). -/
def b64value (c : Char) : Option Nat :=
  if 'A' ≤ c ∧ c ≤ 'Z' then some (c.toNat - 65)
  else if 'a' ≤ c ∧ c ≤ 'z' then some (c.toNat - 97 + 26)
  else if '0' ≤ c ∧ c ≤ '9' then some (c.toNat - 48 + 52)
  else if c = '+' then some 62
  else if c = '/' then some 63
  else none

theorem b64value_alpha_fin : ∀ i : Fin 64, b64value (b64alpha i.val) = some i.val := by
  decide

theorem b64alpha_ne_pad_fin : ∀ i : Fin 64, b64alpha i.val ≠ '=' := by
  decide

theorem b64value_alpha (n : Nat) (h : n < 64) :
    b64value (b64alpha n) = some n := b64value_alpha_fin ⟨n, h⟩

theorem b64alpha_ne_pad (n : Nat) (h : n < 64) : b64alpha n ≠ '=' :=
  b64alpha_ne_pad_fin ⟨n, h⟩

/-- `base64.b64encode` on a byte string: every 3-byte group becomes 4
alphabet characters; a trailing group of 1 or 2 bytes is padded with
`'='`. -/
def b64encodeBytes : List Nat → List Char
  | [] => []
  | [a] => [b64alpha (a / 4), b64alpha (a % 4 * 16), '=', '=']
  | [a, b] =>
    [b64alpha (a / 4), b64alpha (a % 4 * 16 + b / 16), b64alpha (b % 16 * 4), '=']
  | a :: b :: c :: rest =>
    b64alpha (a / 4) :: b64alpha (a % 4 * 16 + b / 16) ::
      b64alpha (b % 16 * 4 + c / 64) :: b64alpha (c % 64) :: b64encodeBytes rest

/-- `base64.b64decode` on well-formed input: groups of 4 characters are
mapped back to 3 bytes, with `'='` padding marking a short final group;
`none` models the `binascii.Error` on malformed input. -/
def b64decodeBytes : List Char → Option (List Nat)
  | [] => some []
  | c1 :: c2 :: c3 :: c4 :: rest =>
    (b64value c1).bind fun s1 =>
    (b64value c2).bind fun s2 =>
    if c3 = '=' then
      if c4 = '=' ∧ rest = [] then some [s1 * 4 + s2 / 16] else none
    else
      (b64value c3).bind fun s3 =>
      if c4 = '=' then
        if rest = [] then
          some [s1 * 4 + s2 / 16, s2 % 16 * 16 + s3 / 4]
        else none
      else
        (b64value c4).bind fun s4 =>
        (b64decodeBytes rest).bind fun bs =>
        some ((s1 * 4 + s2 / 16) :: (s2 % 16 * 16 + s3 / 4) ::
          (s3 % 4 * 64 + s4) :: bs)
  | _ => none

theorem b64_roundtrip : ∀ l : List Nat, (∀ x ∈ l, x < 256) →
    b64decodeBytes (b64encodeBytes l) = some l := by
  intro l
  induction l using b64encodeBytes.induct with
  | case1 =>
    intro _
    rfl
  | case2 a =>
    intro h
    have ha : a < 256 := h a (by simp)
    simp only [b64encodeBytes, b64decodeBytes]
    rw [b64value_alpha (a / 4) (by omega), b64value_alpha (a % 4 * 16) (by omega)]
    simp only [Option.some_bind]
    simp <;> omega
  | case3 a b =>
    intro h
    have ha : a < 256 := h a (by simp)
    have hb : b < 256 := h b (by simp)
    simp only [b64encodeBytes, b64decodeBytes]
    rw [b64value_alpha (a / 4) (by omega),
      b64value_alpha (a % 4 * 16 + b / 16) (by omega)]
    simp only [Option.some_bind]
    rw [if_neg (b64alpha_ne_pad (b % 16 * 4) (by omega))]
    rw [b64value_alpha (b % 16 * 4) (by omega)]
    simp only [Option.some_bind]
    simp <;> omega
  | case4 a b c rest ih =>
    intro h
    have ha : a < 256 := h a (by simp)
    have hb : b < 256 := h b (by simp)
    have hc : c < 256 := h c (by simp)
    have hrest : ∀ x ∈ rest, x < 256 := fun x hx => h x (by simp [hx])
    simp only [b64encodeBytes, b64decodeBytes]
    rw [b64value_alpha (a / 4) (by omega),
      b64value_alpha (a % 4 * 16 + b / 16) (by omega)]
    simp only [Option.some_bind]
    rw [if_neg (b64alpha_ne_pad (b % 16 * 4 + c / 64) (by omega))]
    rw [b64value_alpha (b % 16 * 4 + c / 64) (by omega)]
    simp only [Option.some_bind]
    rw [if_neg (b64alpha_ne_pad (c % 64) (by omega))]
    rw [b64value_alpha (c % 64) (by omega), ih hrest]
    simp only [Option.some_bind]
    simp <;> omega

/-- `PesepayClient._encrypt` (pesepay.py, lines 38-47): serialize the
payload, PKCS#7-pad it, AES-256-CBC-encrypt it with
`iv = key[:16]` (the first 16 bytes of the encryption key), and
base64-encode the ciphertext.  `data` is the byte string
`json.dumps(payload).encode("utf-8")`; `E` is the AES-256 single-block
permutation determined by the key. -/
def pesepay_encrypt (E : List Nat → List Nat) (key data : List Nat) :
    List Char :=
  let iv := key.take 16
  b64encodeBytes (cbcEncryptBlocks E iv (toBlocks (pkcs7pad data))).flatten

/-- `PesepayClient._decrypt` (pesepay.py, lines 49-56): base64-decode,
AES-256-CBC-decrypt with the same `iv = key[:16]`, and strip the PKCS#7
padding; `D` is the inverse block permutation.  `none` models the
exceptions raised on malformed input. -/
def pesepay_decrypt (D : List Nat → List Nat) (key : List Nat)
    (encrypted_text : List Char) : Option (List Nat) :=
  let iv := key.take 16
  (b64decodeBytes encrypted_text).bind fun decoded =>
    pkcs7unpad (cbcDecryptBlocks D iv (toBlocks decoded)).flatten

theorem pkcs7pad_bytes (data : List Nat) (h : ∀ x ∈ data, x < 256) :
    ∀ x ∈ pkcs7pad data, x < 256 := by
  intro x hx
  rw [pkcs7pad] at hx
  rcases List.mem_append.mp hx with h1 | h2
  · exact h x h1
  · have := List.eq_of_mem_replicate h2
    omega

/-- C8: Payload encryption round-trip.  For every payload byte string and
every 32-byte key, with `E`/`D` the mutually inverse AES-256 block
permutations for that key (length-preserving, byte-valued), decrypting the
result of encrypting the payload returns the original payload; both
directions are fixed by `iv = key[:16]`, so encryption is a deterministic
function of the key and the payload. -/
theorem C8_encrypt_roundtrip (E D : List Nat → List Nat) (key data : List Nat)
    (hkeylen : key.length = 32)
    (hkey256 : ∀ x ∈ key, x < 256)
    (hdata256 : ∀ x ∈ data, x < 256)
    (hInv : ∀ b : List Nat, b.length = 16 → D (E b) = b)
    (hELen : ∀ b : List Nat, b.length = 16 → (E b).length = 16)
    (hE256 : ∀ b : List Nat, b.length = 16 → (∀ x ∈ b, x < 256) →
      ∀ x ∈ E b, x < 256) :
    pesepay_decrypt D key (pesepay_encrypt E key data) = some data := by
  have hivlen : (key.take 16).length = 16 := by
    rw [List.length_take, hkeylen]
    omega
  have hiv256 : ∀ x ∈ key.take 16, x < 256 :=
    fun x hx => hkey256 x (List.take_subset 16 key hx)
  have hpadlen : 16 ∣ (pkcs7pad data).length := by
    simp only [pkcs7pad, List.length_append, List.length_replicate]
    omega
  have hp256 : ∀ x ∈ pkcs7pad data, x < 256 := pkcs7pad_bytes data hdata256
  have hblocks : ∀ b ∈ toBlocks (pkcs7pad data), b.length = 16 :=
    toBlocks_lengths _ hpadlen
  have hblocks256 : ∀ b ∈ toBlocks (pkcs7pad data), ∀ x ∈ b, x < 256 := by
    intro b hb x hx
    apply hp256
    rw [← toBlocks_flatten (pkcs7pad data)]
    exact List.mem_flatten.mpr ⟨b, hb, hx⟩
  have hctlen : ∀ c ∈ cbcEncryptBlocks E (key.take 16) (toBlocks (pkcs7pad data)),
      c.length = 16 :=
    cbcEncryptBlocks_lengths E hELen _ _ hivlen hblocks
  have hct256 :
      ∀ x ∈ (cbcEncryptBlocks E (key.take 16) (toBlocks (pkcs7pad data))).flatten,
        x < 256 := by
    intro x hx
    obtain ⟨c, hc, hxc⟩ := List.mem_flatten.mp hx
    exact cbcEncryptBlocks_bytes E hELen hE256 _ _ hivlen hiv256 hblocks
      hblocks256 c hc x hxc
  simp only [pesepay_encrypt, pesepay_decrypt]
  rw [b64_roundtrip _ hct256]
  simp only [Option.some_bind]
  have hback :
      toBlocks (cbcEncryptBlocks E (key.take 16) (toBlocks (pkcs7pad data))).flatten =
        cbcEncryptBlocks E (key.take 16) (toBlocks (pkcs7pad data)) :=
    toBlocksF_of_blocks _ _ hctlen le_rfl
  rw [hback, cbc_roundtrip E D hInv hELen _ _ hivlen hblocks,
    toBlocks_flatten (pkcs7pad data), pkcs7_roundtrip data]

/-- Witness for C8: identity block cipher, the all-zero 32-byte key, and
the two-byte payload `[72, 105]`. -/
theorem C8_encrypt_roundtrip_witness :
    pesepay_decrypt id (List.replicate 32 0)
        (pesepay_encrypt id (List.replicate 32 0) [72, 105]) =
      some [72, 105] :=
  C8_encrypt_roundtrip id id (List.replicate 32 0) [72, 105]
    (by simp) (by decide) (by decide)
    (fun b _ => rfl) (fun b hb => hb) (fun b _ hb => hb)

end MLC
